import Mathlib

/-!
Verification of `schedule.py` (training-loop support utilities for a
Transformer-style text-to-speech / copy-task trainer): learning-rate
scheduling (`NoamOpt`), label smoothing (`LabelSmoothing`), batch and mask
construction (`Batch`, `subsequent_mask`), the synthetic batch generator
(`data_gen`) and the loss-compute wrappers (`SimpleLossCompute`,
`SimpleTT2LossCompute`).

Tensors are embedded as functions out of `Fin` index types.  Tensor entries
are embedded as rationals (every machine float is a rational); the embedded
arithmetic is exact where the program's float arithmetic rounds, which is
disclosed at the definitions where it matters.  The Noam learning-rate
formula uses real powers (`x ** (-0.5)` in the source), so that one
component is embedded over `ℝ` with `Real.rpow`.  Python runtime errors
(failed `assert`, division by zero, invalid tensor subscripts) are
embedded with `Except`.
-/

namespace Schedule

/-- Python runtime errors that the embedded code can raise. -/
inductive PyError where
  | assertionError
  | zeroDivisionError
  | indexError
deriving DecidableEq

/-! ## LabelSmoothing (`schedule.py` lines 65-87)

`forward` clones `x`, overwrites every entry with
`smoothing / (size - 2)` (`fill_`), writes `confidence = 1 - smoothing`
into the target column of each row (`scatter_`), zeroes the
`padding_idx` column, and zeroes every row whose target is
`padding_idx` (`index_fill_`).  The cloned values of `x` are never read:
`fill_` overwrites them all, so the constructed distribution depends
only on the shape of `x`. -/

/-- `true_dist.fill_(v)`: overwrite every entry with `v`. -/
def fillAll {n size : ℕ} (v : ℚ) : Fin n → Fin size → ℚ := fun _ _ => v

/-- `true_dist.scatter_(1, target.unsqueeze(1), v)`: in each row `i`,
write `v` into column `target i`. -/
def scatterCol {n size : ℕ} (target : Fin n → ℕ) (v : ℚ)
    (M : Fin n → Fin size → ℚ) : Fin n → Fin size → ℚ :=
  fun i j => if (j : ℕ) = target i then v else M i j

/-- `true_dist[:, c] = 0`: zero column `c`. -/
def zeroColumn {n size : ℕ} (c : ℕ) (M : Fin n → Fin size → ℚ) :
    Fin n → Fin size → ℚ :=
  fun i j => if (j : ℕ) = c then 0 else M i j

/-- `true_dist.index_fill_(0, mask.squeeze(), 0.0)` where `mask` collects
the rows whose target equals `padding_idx`: zero those rows. -/
def indexFillRows {n size : ℕ} (target : Fin n → ℕ) (padding_idx : ℕ)
    (M : Fin n → Fin size → ℚ) : Fin n → Fin size → ℚ :=
  fun i j => if target i = padding_idx then 0 else M i j

/-- The smoothed target distribution built by `LabelSmoothing.forward`
(lines 79-85), as the composition of the four in-place tensor
operations in source order. -/
def trueDist (size padding_idx : ℕ) (smoothing : ℚ) {n : ℕ}
    (target : Fin n → ℕ) : Fin n → Fin size → ℚ :=
  indexFillRows target padding_idx
    (zeroColumn padding_idx
      (scatterCol target (1 - smoothing)
        (fillAll (smoothing / ((size : ℚ) - 2)))))

/-- `LabelSmoothing.forward(x, target)` (lines 77-87).  `assert
x.size(1) == self.size` raises `AssertionError` when the class dimension
`m` of `x` differs from the configured `size`; otherwise
`smoothing / (self.size - 2)` raises `ZeroDivisionError` when
`size - 2 == 0` (Python integer subtraction, so exactly when
`size = 2`); otherwise the smoothed distribution is built.  The
`KLDivLoss` criterion applied to `x` and the distribution is an external
library primitive; the constructed distribution (retained by the module
as `self.true_dist`) is returned by the embedding. -/
def LabelSmoothing.forward (size padding_idx : ℕ) (smoothing : ℚ) {n m : ℕ}
    (x : Fin n → Fin m → ℚ) (target : Fin n → ℕ) :
    Except PyError (Fin n → Fin size → ℚ) :=
  if m = size then
    if (size : ℤ) - 2 = 0 then .error .zeroDivisionError
    else .ok (trueDist size padding_idx smoothing target)
  else .error .assertionError

/-! ### Claims C2, C7, C9 -/

/-- C2 (counterexample): the claim asserts that in a non-padding row every
class other than the target class holds `smoothing / (size - 2)`; but the
`padding_idx` column of such a row holds `0`, not `smoothing / (size - 2)`.
Concretely with `size = 4`, `padding_idx = 0`, `smoothing = 2/5`, and a
single row with target class `1`: column `0` of that row is `0 ≠ 1/5`. -/
theorem trueDist_uniform_clause_false :
    ¬ (∀ j : Fin 4, (j : ℕ) ≠ 1 →
        trueDist 4 0 (2/5) (fun _ : Fin 1 => 1) 0 j = (2/5) / ((4 : ℚ) - 2)) := by
  intro h
  have h0 := h ⟨0, by norm_num⟩ (by norm_num)
  simp [trueDist, indexFillRows, zeroColumn, scatterCol, fillAll] at h0
  norm_num at h0

/-- C2 (amended): for the smoothed distribution built by
`LabelSmoothing.forward`: (1) each non-padding row holds
`confidence = 1 - smoothing` at its target class; (2) every other class of
such a row, *except the `padding_idx` column*, holds
`smoothing / (size - 2)`; (3) the `padding_idx` column is `0` in every row;
(4) every row whose target equals `padding_idx` is entirely zero. -/
theorem trueDist_spec (size padding_idx : ℕ) (smoothing : ℚ) {n : ℕ}
    (target : Fin n → ℕ) :
    (∀ (i : Fin n) (ht : target i < size), target i ≠ padding_idx →
        trueDist size padding_idx smoothing target i ⟨target i, ht⟩
          = 1 - smoothing) ∧
    (∀ (i : Fin n) (j : Fin size), target i ≠ padding_idx →
        (j : ℕ) ≠ target i → (j : ℕ) ≠ padding_idx →
        trueDist size padding_idx smoothing target i j
          = smoothing / ((size : ℚ) - 2)) ∧
    (∀ (i : Fin n) (j : Fin size), (j : ℕ) = padding_idx →
        trueDist size padding_idx smoothing target i j = 0) ∧
    (∀ (i : Fin n) (j : Fin size), target i = padding_idx →
        trueDist size padding_idx smoothing target i j = 0) := by
  refine ⟨?_, ?_, ?_, ?_⟩
  · intro i ht hne
    simp [trueDist, indexFillRows, zeroColumn, scatterCol, fillAll, hne]
  · intro i j hne hjt hjp
    simp [trueDist, indexFillRows, zeroColumn, scatterCol, fillAll, hne, hjt, hjp]
  · intro i j hj
    by_cases hrow : target i = padding_idx <;>
      simp [trueDist, indexFillRows, zeroColumn, scatterCol, fillAll, hrow, hj]
  · intro i j hrow
    simp [trueDist, indexFillRows, zeroColumn, scatterCol, fillAll, hrow]

/-- C2 (witness): the amended characterisation evaluated at `size = 4`,
`padding_idx = 0`, `smoothing = 2/5`, one row with target class `1`
(clauses 1-3) and one row with target class `0` (clause 4). -/
theorem trueDist_spec_witness :
    trueDist 4 0 (2/5) (fun _ : Fin 1 => 1) 0 ⟨1, by decide⟩ = 1 - 2/5 ∧
    trueDist 4 0 (2/5) (fun _ : Fin 1 => 1) 0 ⟨2, by decide⟩
      = (2/5) / ((4 : ℚ) - 2) ∧
    trueDist 4 0 (2/5) (fun _ : Fin 1 => 1) 0 ⟨0, by decide⟩ = 0 ∧
    trueDist 4 0 (2/5) (fun _ : Fin 1 => 0) 0 ⟨3, by decide⟩ = 0 :=
  ⟨(trueDist_spec 4 0 (2/5) (fun _ : Fin 1 => 1)).1 0 (by decide) (by decide),
   (trueDist_spec 4 0 (2/5) (fun _ : Fin 1 => 1)).2.1 0 ⟨2, by decide⟩
     (by decide) (by decide) (by decide),
   (trueDist_spec 4 0 (2/5) (fun _ : Fin 1 => 1)).2.2.1 0 ⟨0, by decide⟩
     (by decide),
   (trueDist_spec 4 0 (2/5) (fun _ : Fin 1 => 0)).2.2.2 0 ⟨3, by decide⟩
     (by decide)⟩

/-- C7: `LabelSmoothing.forward` raises `AssertionError` exactly when the
class dimension of `x` (its size along dimension 1) differs from the
configured `size`. -/
theorem forward_assertion_iff (size padding_idx : ℕ) (smoothing : ℚ)
    {n m : ℕ} (x : Fin n → Fin m → ℚ) (target : Fin n → ℕ) :
    LabelSmoothing.forward size padding_idx smoothing x target
        = .error .assertionError ↔ m ≠ size := by
  by_cases hm : m = size
  · subst hm
    by_cases hs : (m : ℤ) - 2 = 0 <;>
      simp [LabelSmoothing.forward, hs]
  · simp [LabelSmoothing.forward, hm]

/-- C9: with `size = 2`, every `forward` call that passes the
class-dimension assertion (i.e. whose `x` has class dimension `2`) raises
`ZeroDivisionError` while computing `smoothing / (size - 2)`, for every
smoothing coefficient, padding index and target vector. -/
theorem forward_size_two_zero_division (padding_idx : ℕ) (smoothing : ℚ)
    {n : ℕ} (x : Fin n → Fin 2 → ℚ) (target : Fin n → ℕ) :
    LabelSmoothing.forward 2 padding_idx smoothing x target
      = .error .zeroDivisionError := by
  simp [LabelSmoothing.forward]

/-! ## NoamOpt (`schedule.py` lines 13-40)

The optimizer itself is an external collaborator; the schedule state is
the three hyperparameters.  `rate(step)` is a pure function of the step,
embedded over `ℝ` (`**` on positive floats is the real power). -/

/-- The schedule hyperparameters held by a `NoamOpt`. -/
structure NoamOpt where
  model_size : ℝ
  factor : ℝ
  warmup : ℝ

/-- `NoamOpt.rate` (lines 34-40):
`factor * (model_size ** (-0.5) * min(step ** (-0.5), step * warmup ** (-1.5)))`. -/
noncomputable def NoamOpt.rate (o : NoamOpt) (step : ℝ) : ℝ :=
  o.factor * (o.model_size ^ (-0.5 : ℝ) *
    min (step ^ (-0.5 : ℝ)) (step * o.warmup ^ (-1.5 : ℝ)))

/-- For `0 < s ≤ w`, the `min` in the rate resolves to the linear warmup
branch `s * w ** (-1.5)`. -/
lemma rate_min_warmup_branch {w s : ℝ} (hw : 0 < w) (hs : 0 < s) (h : s ≤ w) :
    min (s ^ (-0.5 : ℝ)) (s * w ^ (-1.5 : ℝ)) = s * w ^ (-1.5 : ℝ) := by
  apply min_eq_right
  have ha : (0 : ℝ) < s ^ (0.5 : ℝ) := Real.rpow_pos_of_pos hs _
  have hb : (0 : ℝ) < w ^ (1.5 : ℝ) := Real.rpow_pos_of_pos hw _
  have key : s * s ^ (0.5 : ℝ) ≤ w ^ (1.5 : ℝ) := by
    have h1 : s * s ^ (0.5 : ℝ) = s ^ (1.5 : ℝ) := by
      have := (Real.rpow_add hs 1 0.5).symm
      rw [Real.rpow_one] at this
      rw [this]
      norm_num
    rw [h1]
    exact Real.rpow_le_rpow hs.le h (by norm_num)
  rw [show (-0.5 : ℝ) = -(0.5 : ℝ) by norm_num,
    show (-1.5 : ℝ) = -(1.5 : ℝ) by norm_num,
    Real.rpow_neg hw.le, Real.rpow_neg hs.le,
    ← div_eq_mul_inv, ← one_div, div_le_div_iff₀ hb ha, one_mul]
  exact key

/-- For `0 < w ≤ s`, the `min` in the rate resolves to the decay branch
`s ** (-0.5)`. -/
lemma rate_min_decay_branch {w s : ℝ} (hw : 0 < w) (h : w ≤ s) :
    min (s ^ (-0.5 : ℝ)) (s * w ^ (-1.5 : ℝ)) = s ^ (-0.5 : ℝ) := by
  have hs : 0 < s := lt_of_lt_of_le hw h
  apply min_eq_left
  have ha : (0 : ℝ) < s ^ (0.5 : ℝ) := Real.rpow_pos_of_pos hs _
  have hb : (0 : ℝ) < w ^ (1.5 : ℝ) := Real.rpow_pos_of_pos hw _
  have key : w ^ (1.5 : ℝ) ≤ s * s ^ (0.5 : ℝ) := by
    have h1 : s * s ^ (0.5 : ℝ) = s ^ (1.5 : ℝ) := by
      have := (Real.rpow_add hs 1 0.5).symm
      rw [Real.rpow_one] at this
      rw [this]
      norm_num
    rw [h1]
    exact Real.rpow_le_rpow hw.le h (by norm_num)
  rw [show (-0.5 : ℝ) = -(0.5 : ℝ) by norm_num,
    show (-1.5 : ℝ) = -(1.5 : ℝ) by norm_num,
    Real.rpow_neg hw.le, Real.rpow_neg hs.le,
    ← div_eq_mul_inv, ← one_div, div_le_div_iff₀ ha hb, one_mul]
  exact key

/-! ### Claims C1, C5 -/

/-- C1: for positive `model_size`, `factor`, `warmup` and `step`,
`NoamOpt.rate(step)` equals
`factor * model_size ** (-0.5) * min(step ** (-0.5), step * warmup ** (-1.5))`. -/
theorem noam_rate_formula (o : NoamOpt) (step : ℝ)
    (hms : 0 < o.model_size) (hf : 0 < o.factor) (hw : 0 < o.warmup)
    (hs : 0 < step) :
    o.rate step = o.factor * o.model_size ^ (-0.5 : ℝ) *
      min (step ^ (-0.5 : ℝ)) (step * o.warmup ^ (-1.5 : ℝ)) := by
  unfold NoamOpt.rate
  ring

/-- C1 (witness): the formula evaluated at `model_size = 512`,
`factor = 2`, `warmup = 4000`, `step = 10`. -/
theorem noam_rate_formula_witness :
    NoamOpt.rate ⟨512, 2, 4000⟩ 10 = 2 * (512 : ℝ) ^ (-0.5 : ℝ) *
      min ((10 : ℝ) ^ (-0.5 : ℝ)) (10 * (4000 : ℝ) ^ (-1.5 : ℝ)) :=
  noam_rate_formula ⟨512, 2, 4000⟩ 10 (by norm_num) (by norm_num)
    (by norm_num) (by norm_num)

/-- C5 (counterexample): the claim quantifies over every `NoamOpt` with
positive `warmup` and `model_size` but does not constrain `factor`.  With
`factor = 0` the rate is constantly `0`, so it is not strictly decreasing
past the warmup: `model_size = 1`, `warmup = 1`, steps `2 < 3`. -/
theorem noam_rate_monotone_claim_false :
    (0 : ℝ) < (⟨1, 0, 1⟩ : NoamOpt).model_size ∧
    (0 : ℝ) < (⟨1, 0, 1⟩ : NoamOpt).warmup ∧
    ¬ (∀ s1 s2 : ℕ, (⟨1, 0, 1⟩ : NoamOpt).warmup < (s1 : ℝ) → s1 < s2 →
        NoamOpt.rate ⟨1, 0, 1⟩ (s2 : ℝ) < NoamOpt.rate ⟨1, 0, 1⟩ (s1 : ℝ)) := by
  refine ⟨by norm_num, by norm_num, fun h => ?_⟩
  have h23 := h 2 3 (by norm_num) (by norm_num)
  simp [NoamOpt.rate] at h23

/-- C5 (amended): for every `NoamOpt` with positive `model_size`, `warmup`
*and `factor`*, the rate is monotonically non-decreasing on integer steps
`1 ≤ s1 ≤ s2` with `s2 ≤ warmup`, and strictly decreasing on integer steps
`warmup < s1 < s2`. -/
theorem noam_rate_monotone (o : NoamOpt) (hms : 0 < o.model_size)
    (hf : 0 < o.factor) (hw : 0 < o.warmup) :
    (∀ s1 s2 : ℕ, 1 ≤ s1 → s1 ≤ s2 → (s2 : ℝ) ≤ o.warmup →
        o.rate (s1 : ℝ) ≤ o.rate (s2 : ℝ)) ∧
    (∀ s1 s2 : ℕ, o.warmup < (s1 : ℝ) → s1 < s2 →
        o.rate (s2 : ℝ) < o.rate (s1 : ℝ)) := by
  have hmspow : (0 : ℝ) < o.model_size ^ (-0.5 : ℝ) :=
    Real.rpow_pos_of_pos hms _
  have hwpow : (0 : ℝ) < o.warmup ^ (-1.5 : ℝ) :=
    Real.rpow_pos_of_pos hw _
  constructor
  · intro s1 s2 h1 h12 h2w
    have hs1 : (0 : ℝ) < (s1 : ℝ) := by exact_mod_cast h1
    have hc12 : ((s1 : ℝ)) ≤ (s2 : ℝ) := by exact_mod_cast h12
    have hs2 : (0 : ℝ) < (s2 : ℝ) := lt_of_lt_of_le hs1 hc12
    have h1w : (s1 : ℝ) ≤ o.warmup := le_trans hc12 h2w
    unfold NoamOpt.rate
    rw [rate_min_warmup_branch hw hs1 h1w, rate_min_warmup_branch hw hs2 h2w]
    have hc : (0 : ℝ) ≤ o.factor * (o.model_size ^ (-0.5 : ℝ) *
        o.warmup ^ (-1.5 : ℝ)) :=
      le_of_lt (mul_pos hf (mul_pos hmspow hwpow))
    calc o.factor * (o.model_size ^ (-0.5 : ℝ) *
            ((s1 : ℝ) * o.warmup ^ (-1.5 : ℝ)))
        = o.factor * (o.model_size ^ (-0.5 : ℝ) *
            o.warmup ^ (-1.5 : ℝ)) * (s1 : ℝ) := by ring
      _ ≤ o.factor * (o.model_size ^ (-0.5 : ℝ) *
            o.warmup ^ (-1.5 : ℝ)) * (s2 : ℝ) :=
          mul_le_mul_of_nonneg_left hc12 hc
      _ = o.factor * (o.model_size ^ (-0.5 : ℝ) *
            ((s2 : ℝ) * o.warmup ^ (-1.5 : ℝ))) := by ring
  · intro s1 s2 hw1 h12
    have hs1 : (0 : ℝ) < (s1 : ℝ) := lt_trans hw hw1
    have hc12 : ((s1 : ℝ)) < (s2 : ℝ) := by exact_mod_cast h12
    have hs2 : (0 : ℝ) < (s2 : ℝ) := lt_trans hs1 hc12
    unfold NoamOpt.rate
    rw [rate_min_decay_branch hw hw1.le,
      rate_min_decay_branch hw (le_trans hw1.le hc12.le)]
    have hpow : (s2 : ℝ) ^ (-0.5 : ℝ) < (s1 : ℝ) ^ (-0.5 : ℝ) := by
      have ha : (0 : ℝ) < (s1 : ℝ) ^ (0.5 : ℝ) := Real.rpow_pos_of_pos hs1 _
      have hb : (0 : ℝ) < (s2 : ℝ) ^ (0.5 : ℝ) := Real.rpow_pos_of_pos hs2 _
      have hlt : (s1 : ℝ) ^ (0.5 : ℝ) < (s2 : ℝ) ^ (0.5 : ℝ) :=
        Real.rpow_lt_rpow hs1.le hc12 (by norm_num)
      rw [show (-0.5 : ℝ) = -(0.5 : ℝ) by norm_num,
        Real.rpow_neg hs1.le, Real.rpow_neg hs2.le]
      exact inv_strictAnti₀ ha hlt
    have hcpos : (0 : ℝ) < o.factor * o.model_size ^ (-0.5 : ℝ) :=
      mul_pos hf hmspow
    calc o.factor * (o.model_size ^ (-0.5 : ℝ) * (s2 : ℝ) ^ (-0.5 : ℝ))
        = o.factor * o.model_size ^ (-0.5 : ℝ) * (s2 : ℝ) ^ (-0.5 : ℝ) := by
          ring
      _ < o.factor * o.model_size ^ (-0.5 : ℝ) * (s1 : ℝ) ^ (-0.5 : ℝ) :=
          mul_lt_mul_of_pos_left hpow hcpos
      _ = o.factor * (o.model_size ^ (-0.5 : ℝ) * (s1 : ℝ) ^ (-0.5 : ℝ)) := by
          ring

/-- C5 (witness): the amended monotonicity at `model_size = 1`,
`factor = 1`, `warmup = 4000`: non-decreasing from step `1` to step `2`,
and strictly decreasing from step `4001` to step `4002`. -/
theorem noam_rate_monotone_witness :
    NoamOpt.rate ⟨1, 1, 4000⟩ ((1 : ℕ) : ℝ)
      ≤ NoamOpt.rate ⟨1, 1, 4000⟩ ((2 : ℕ) : ℝ) ∧
    NoamOpt.rate ⟨1, 1, 4000⟩ ((4002 : ℕ) : ℝ)
      < NoamOpt.rate ⟨1, 1, 4000⟩ ((4001 : ℕ) : ℝ) :=
  ⟨(noam_rate_monotone ⟨1, 1, 4000⟩ (by norm_num) (by norm_num)
      (by norm_num)).1 1 2 (by norm_num) (by norm_num) (by norm_num),
   (noam_rate_monotone ⟨1, 1, 4000⟩ (by norm_num) (by norm_num)
      (by norm_num)).2 4001 4002 (by norm_num) (by norm_num)⟩

/-! ## Masks (`schedule.py` lines 107-120) -/

/-- `np.triu(np.ones((1, size, size)), k=1).astype('uint8')`: ones strictly
above the diagonal, zeros elsewhere, with a leading broadcast dimension. -/
def npTriuOnesK1 (size : ℕ) : Fin 1 → Fin size → Fin size → ℕ :=
  fun _ r c => if (r : ℕ) + 1 ≤ (c : ℕ) then 1 else 0

/-- `subsequent_mask(size)` (lines 116-120): the `uint8` upper-triangular
matrix compared against `0`, giving a boolean tensor of shape
`(1, size, size)`. -/
def subsequent_mask (size : ℕ) : Fin 1 → Fin size → Fin size → Bool :=
  fun b r c => decide (npTriuOnesK1 size b r c = 0)

/-- The entry of `subsequent_mask` at `(r, c)` is `True` exactly when
`c ≤ r`. -/
lemma subsequent_mask_entry (size : ℕ) (b : Fin 1) (r c : Fin size) :
    subsequent_mask size b r c = decide ((c : ℕ) ≤ (r : ℕ)) := by
  by_cases h : (r : ℕ) + 1 ≤ (c : ℕ) <;>
    simp [subsequent_mask, npTriuOnesK1, h] <;> omega

/-- The per-position padding mask used by `Batch.make_std_mask`
(line 110): `tgt.sum(dim=-1) != pad`, i.e. a position (frame) is
non-padding when the sum of its feature vector differs from the pad
value. -/
def tgtPadMask {B T F : ℕ} (tgt : Fin B → Fin T → Fin F → ℚ) (pad : ℚ) :
    Fin B → Fin T → Bool :=
  fun b t => decide ((∑ f, tgt b t f) ≠ pad)

/-- `Batch.make_std_mask(tgt, pad)` (lines 107-113):
`(tgt.sum(dim=-1) != pad).unsqueeze(-2) & subsequent_mask(tgt.size(-2))`.
The unsqueeze/broadcast makes entry `(b, i, j)` combine the padding bit of
position `j` with the causal bit at `(i, j)`. -/
def make_std_mask {B T F : ℕ} (tgt : Fin B → Fin T → Fin F → ℚ)
    (pad : ℚ) : Fin B → Fin T → Fin T → Bool :=
  fun b i j =>
    decide ((∑ f, tgt b j f) ≠ pad) && subsequent_mask T ⟨0, Nat.one_pos⟩ i j

/-! ### Claims C4, C6 -/

/-- C4: for every positive `N`, the boolean matrix returned by
`subsequent_mask(N)` (its single broadcast slice) has entry `(r, c)` equal
to `True` exactly when `c ≤ r`: lower-triangular including the diagonal. -/
theorem subsequent_mask_lower_triangular (N : ℕ) (hN : 0 < N)
    (b : Fin 1) (r c : Fin N) :
    subsequent_mask N b r c = decide ((c : ℕ) ≤ (r : ℕ)) :=
  subsequent_mask_entry N b r c

/-- C4 (witness): `subsequent_mask 3` evaluated at `(r, c) = (2, 1)`. -/
theorem subsequent_mask_lower_triangular_witness :
    subsequent_mask 3 ⟨0, by decide⟩ ⟨2, by decide⟩ ⟨1, by decide⟩
      = decide ((1 : ℕ) ≤ (2 : ℕ)) :=
  subsequent_mask_lower_triangular 3 (by decide) ⟨0, by decide⟩
    ⟨2, by decide⟩ ⟨1, by decide⟩

/-- C6: `Batch.make_std_mask(tgt, pad)` is the conjunction of the padding
mask (positions of `tgt` whose feature-sum differs from `pad`, the mask is
broadcast along the query dimension) and the causal mask
`subsequent_mask` of the target length. -/
theorem make_std_mask_decomposition {B T F : ℕ}
    (tgt : Fin B → Fin T → Fin F → ℚ) (pad : ℚ)
    (b : Fin B) (i j : Fin T) :
    make_std_mask tgt pad b i j
      = (tgtPadMask tgt pad b j && decide ((j : ℕ) ≤ (i : ℕ))) := by
  rw [make_std_mask, tgtPadMask, subsequent_mask_entry]

/-! ## Batch and the synthetic generator (`schedule.py` lines 90-130)

`Batch.__init__(src, trg_set, pad)` stores `src` and its padding mask;
when `trg_set` is present it evaluates `trg_set['trg']` and
`trg_set['trg_stops']`, shifts them into teacher-forcing input/output
pairs, builds the combined target mask and counts non-padding frames.
`data_gen` (lines 123-130) passes the raw 2-D integer tensor `data` as
`trg_set`; subscripting a tensor with the string key `'trg'` raises at
run time, so the dictionary branch is only reachable from
`data_gen_tt2`. -/

/-- The `trg_set` dictionary expected by `Batch.__init__`: a 3-D target
tensor (batch x time x features) under key `'trg'` and per-frame stop
labels under key `'trg_stops'`. -/
structure TrgDict (B T F : ℕ) where
  trg : Fin B → Fin T → Fin F → ℚ
  trg_stops : Fin B → Fin T → Fin 1 → ℚ

/-- The dynamically-typed `trg_set` argument of `Batch.__init__`: either a
proper dictionary, or a raw 2-D tensor (what `data_gen` actually passes). -/
inductive TrgSetArg (B : ℕ) where
  | tensor2 {M : ℕ} (t : Fin B → Fin M → ℚ) : TrgSetArg B
  | dict {T F : ℕ} (d : TrgDict B T F) : TrgSetArg B

/-- The target-side fields stored by `Batch.__init__` when a target set is
given: `trg` and `trg_y` (the `[:, :-1, :]` and `[:, 1:, :]` shifts, of
time length `T - 1`), the combined target mask, the non-padding frame
count and the shifted stop tokens. -/
structure TrgFields (B : ℕ) where
  T1 : ℕ
  F : ℕ
  trg : Fin B → Fin T1 → Fin F → ℚ
  trg_y : Fin B → Fin T1 → Fin F → ℚ
  trg_mask : Fin B → Fin T1 → Fin T1 → Bool
  nframes : ℕ
  stop_tokens : Fin B → Fin T1 → Fin 1 → ℚ

/-- The fields stored by a constructed `Batch`. -/
structure BatchObj (B N : ℕ) where
  src : Fin B → Fin N → ℚ
  src_mask : Fin B → Fin 1 → Fin N → Bool
  trgFields : Option (TrgFields B)

/-- `Batch.__init__(src, trg_set, pad)` (lines 93-105).  With no target
set, only `src` and `src_mask = (src != pad).unsqueeze(-2)` are stored.
With a dictionary, the shifted targets, the combined mask
(`make_std_mask`), the frame count `(trg_y.sum(dim=-1) != pad).sum()` and
the shifted stop tokens are stored.  With a raw tensor (as passed by
`data_gen`), the very first access `trg_set['trg']` subscripts a tensor
with a string, which raises. -/
def Batch.init {B N : ℕ} (src : Fin B → Fin N → ℚ)
    (trg_set : Option (TrgSetArg B)) (pad : ℚ) :
    Except PyError (BatchObj B N) :=
  match trg_set with
  | none =>
      .ok ⟨src, fun b _ n => decide (src b n ≠ pad), none⟩
  | some (.tensor2 _) => .error .indexError
  | some (.dict d) =>
      let trg := d.trg
      let trgShift := fun b (t : Fin _) f =>
        trg b ⟨(t : ℕ), lt_of_lt_of_le t.isLt (Nat.sub_le _ 1)⟩ f
      let trgY := fun b (t : Fin _) f =>
        trg b ⟨(t : ℕ) + 1, by have := t.isLt; omega⟩ f
      .ok ⟨src, fun b _ n => decide (src b n ≠ pad),
        some ⟨_, _, trgShift, trgY, make_std_mask trgShift pad,
          (Finset.univ.filter
            (fun p : Fin B × Fin _ => (∑ f, trgY p.1 p.2 f) ≠ pad)).card,
          fun b (t : Fin _) s =>
            d.trg_stops b ⟨(t : ℕ) + 1, by have := t.isLt; omega⟩ s⟩⟩

/-- `data_gen(V, batch, nbatches, device)` (lines 123-130).  The calls to
`np.random.randint(1, V, size=(batch, 10))` are embedded as an oracle
`rand` giving the drawn values for each iteration; the generated `data`
fixes column `0` to `1`.  Each iteration constructs
`Batch(src, tgt, 0)` where `tgt` is the raw 2-D tensor `data`. -/
def data_gen (V : ℕ) {B : ℕ} (nbatches : ℕ)
    (rand : ℕ → Fin B → Fin 10 → ℚ) :
    List (Except PyError (BatchObj B 10)) :=
  (List.range nbatches).map (fun i =>
    let data : Fin B → Fin 10 → ℚ :=
      fun b j => if (j : ℕ) = 0 then 1 else rand i b j
    Batch.init data (some (.tensor2 data)) 0)

/-! ### Claim C3 -/

/-- C3 (code bug): every batch produced by `data_gen` is an error, never a
`Batch`: `Batch.__init__` evaluates `trg_set['trg']` on the raw 2-D tensor
passed by `data_gen`, and string-subscripting a tensor raises.  Shown at
`V = 5`, `batch = 2`, `nbatches = 1`, for every random draw. -/
theorem data_gen_never_yields_batch
    (rand : ℕ → Fin 2 → Fin 10 → ℚ) :
    data_gen 5 1 rand = [.error .indexError] := rfl

/-! ## Loss compute wrappers (`schedule.py` lines 173-217)

The backpropagation, gradient clipping and optimizer calls are external
side effects; the embedding records them, in execution order, in an event
trace alongside the computed scalar values. -/

/-- Training side effects performed by a loss-compute call, in order. -/
inductive TrainEvent where
  | backward
  | clipGradNorm (c : ℚ)
  | optStep
  | zeroGrad
deriving DecidableEq

/-- The outcome of one loss-compute call: the value returned to the
caller, the scalar loss that was backpropagated, and the side-effect
trace. -/
structure LossCallResult where
  returned : ℚ
  loss : ℚ
  events : List TrainEvent

/-- Row-major flattening of the two leading dimensions:
`x.contiguous().view(-1, x.size(-1))`. -/
def flattenRows {B T C : ℕ} (x : Fin B → Fin T → Fin C → ℚ) :
    Fin (B * T) → Fin C → ℚ :=
  fun i c => x (finProdFinEquiv.symm i).1 (finProdFinEquiv.symm i).2 c

/-- Row-major flattening of an integer target tensor:
`y.contiguous().view(-1)`. -/
def flattenTargets {B T : ℕ} (y : Fin B → Fin T → ℕ) : Fin (B * T) → ℕ :=
  fun i => y (finProdFinEquiv.symm i).1 (finProdFinEquiv.symm i).2

/-- `SimpleLossCompute.__call__(x, y, norm)` (lines 181-189): applies the
generator, computes `criterion(x.view(-1, C), y.view(-1)) / norm`, calls
`loss.backward()`, optionally steps the optimizer wrapper and clears its
gradients, and returns `loss.data.item() * norm`.  The division by `norm`
and the multiplication by `norm` are exact here, whereas the program's
float division and multiplication each round; properties that depend on
that rounding (such as whether the two operations cancel exactly) are
outside this embedding. -/
def SimpleLossCompute.call {B T D C : ℕ}
    (generator : (Fin B → Fin T → Fin D → ℚ) → Fin B → Fin T → Fin C → ℚ)
    (criterion : (Fin (B * T) → Fin C → ℚ) → (Fin (B * T) → ℕ) → ℚ)
    (optPresent : Bool)
    (x : Fin B → Fin T → Fin D → ℚ) (y : Fin B → Fin T → ℕ)
    (norm : ℚ) : LossCallResult :=
  let xg := generator x
  let loss := criterion (flattenRows xg) (flattenTargets y) / norm
  { returned := loss * norm
    loss := loss
    events := [.backward] ++ (if optPresent then [.optStep, .zeroGrad] else []) }

/-- `torch.mean` of a 3-D tensor: sum of all entries over the number of
entries. -/
def meanAll {B T S : ℕ} (M : Fin B → Fin T → Fin S → ℚ) : ℚ :=
  (∑ b, ∑ t, ∑ s, M b t s) / ((B * T * S : ℕ) : ℚ)

/-- `SimpleTT2LossCompute.__call__(x, y, stop_x, stop_y, norm, model)`
(lines 200-217): computes the elementwise stop loss, scales its final
time step (`stop_loss[:, -1, :] *= hp.positive_stop_weight`) before the
mean reduction, forms
`loss = criterion(x, y) + hp.loss_w_stop * stop_loss`, backpropagates,
clips the model's gradient norm to `1.`, optionally steps the optimizer
wrapper and clears its gradients, and returns `loss.data.item() * norm`. -/
def SimpleTT2LossCompute.call {B T D S : ℕ}
    (criterion : (Fin B → Fin T → Fin D → ℚ) → (Fin B → Fin T → Fin D → ℚ) → ℚ)
    (stop : (Fin B → Fin T → Fin S → ℚ) → (Fin B → Fin T → Fin S → ℚ) →
      Fin B → Fin T → Fin S → ℚ)
    (optPresent : Bool) (positive_stop_weight loss_w_stop : ℚ)
    (x y : Fin B → Fin T → Fin D → ℚ)
    (stop_x stop_y : Fin B → Fin T → Fin S → ℚ)
    (norm : ℚ) : LossCallResult :=
  let stopElems := stop stop_x stop_y
  let stopScaled : Fin B → Fin T → Fin S → ℚ :=
    fun b t s => if (t : ℕ) = T - 1
      then stopElems b t s * positive_stop_weight
      else stopElems b t s
  let stopLoss := meanAll stopScaled
  let loss := criterion x y + loss_w_stop * stopLoss
  { returned := loss * norm
    loss := loss
    events := [.backward, .clipGradNorm 1]
      ++ (if optPresent then [.optStep, .zeroGrad] else []) }

/-! ### Claim C8 -/

/-- C8: in `SimpleTT2LossCompute.__call__` the stop-token loss has its
final time step scaled by the (positive) configured stop weight before
the mean reduction; the backpropagated loss equals
`criterion(x, y) + loss_w_stop * stop_loss`; the gradient norm is clipped
to `1.0` immediately after backpropagation; and when an optimizer wrapper
is present it is stepped and its gradients are cleared. -/
theorem simpleTT2LossCompute_call_spec {B T D S : ℕ}
    (criterion : (Fin B → Fin T → Fin D → ℚ) → (Fin B → Fin T → Fin D → ℚ) → ℚ)
    (stop : (Fin B → Fin T → Fin S → ℚ) → (Fin B → Fin T → Fin S → ℚ) →
      Fin B → Fin T → Fin S → ℚ)
    (optPresent : Bool) (positive_stop_weight loss_w_stop : ℚ)
    (x y : Fin B → Fin T → Fin D → ℚ)
    (stop_x stop_y : Fin B → Fin T → Fin S → ℚ)
    (norm : ℚ) (hpos : 0 < positive_stop_weight) :
    (SimpleTT2LossCompute.call criterion stop optPresent positive_stop_weight
        loss_w_stop x y stop_x stop_y norm).loss
      = criterion x y + loss_w_stop * meanAll
          (fun b t s => if (t : ℕ) = T - 1
            then positive_stop_weight * stop stop_x stop_y b t s
            else stop stop_x stop_y b t s) ∧
    (SimpleTT2LossCompute.call criterion stop optPresent positive_stop_weight
        loss_w_stop x y stop_x stop_y norm).events
      = [.backward, .clipGradNorm 1]
          ++ (if optPresent then [.optStep, .zeroGrad] else []) := by
  constructor
  · have hfun : (fun (b : Fin B) (t : Fin T) (s : Fin S) =>
        if (t : ℕ) = T - 1
        then stop stop_x stop_y b t s * positive_stop_weight
        else stop stop_x stop_y b t s)
      = (fun (b : Fin B) (t : Fin T) (s : Fin S) =>
          if (t : ℕ) = T - 1
          then positive_stop_weight * stop stop_x stop_y b t s
          else stop stop_x stop_y b t s) := by
      funext b t s
      by_cases h : (t : ℕ) = T - 1 <;> simp [h, mul_comm]
    simp only [SimpleTT2LossCompute.call, hfun]
  · rfl

/-- C8 (witness): the spec evaluated on a `1 x 1 x 1` example with
constant criterion `5`, constant stop loss `3`, stop weight `2`,
stop-loss weight `7` and an optimizer present. -/
theorem simpleTT2LossCompute_call_spec_witness :
    (SimpleTT2LossCompute.call (fun _ _ => (5 : ℚ)) (fun _ _ _ _ _ => (3 : ℚ))
        true 2 7 (fun (_ : Fin 1) (_ : Fin 1) (_ : Fin 1) => (0 : ℚ))
        (fun _ _ _ => 0)
        (fun (_ : Fin 1) (_ : Fin 1) (_ : Fin 1) => (0 : ℚ))
        (fun _ _ _ => 0) 1).loss
      = 5 + 7 * meanAll (fun (_ : Fin 1) (t : Fin 1) (_ : Fin 1) =>
          if (t : ℕ) = 0 then (2 : ℚ) * 3 else 3) ∧
    (SimpleTT2LossCompute.call (fun _ _ => (5 : ℚ)) (fun _ _ _ _ _ => (3 : ℚ))
        true 2 7 (fun (_ : Fin 1) (_ : Fin 1) (_ : Fin 1) => (0 : ℚ))
        (fun _ _ _ => 0)
        (fun (_ : Fin 1) (_ : Fin 1) (_ : Fin 1) => (0 : ℚ))
        (fun _ _ _ => 0) 1).events
      = [.backward, .clipGradNorm 1, .optStep, .zeroGrad] :=
  simpleTT2LossCompute_call_spec (fun _ _ => (5 : ℚ)) (fun _ _ _ _ _ => (3 : ℚ))
    true 2 7 (fun (_ : Fin 1) (_ : Fin 1) (_ : Fin 1) => (0 : ℚ))
    (fun _ _ _ => 0)
    (fun (_ : Fin 1) (_ : Fin 1) (_ : Fin 1) => (0 : ℚ))
    (fun _ _ _ => 0) 1 (by norm_num)

end Schedule
